import Mathlib

/- Verification of the P2P-Game deterministic simulation (src/src/main.rs).

The game is a bevy 0.11 / bevy_ggrs 0.13 application.  The per-frame
simulation consists of the three systems registered in the `GgrsSchedule`
(main.rs lines 143-147), run in the fixed order
`move_players` -> `move_objects` -> `age_mortals`.

Embedding choices:
* The Rust code computes with `f32`.  We model the arithmetic exactly over
  the field ℚ(√2) (`Q2` below, pairs `a + b·√2` with `a b : ℚ`): every
  value the simulation produces lies in this field, because the only
  non-rational operation is `Vec3::normalize_or_zero` applied to vectors
  whose components are built from the input bits and hence lie in
  {-1, 0, 1}; such vectors have length 0, 1 or √2.  This idealisation
  abstracts the f32 rounding (spec §9 itself flags float determinism as an
  open risk); every claim checked below is robust to it because the code
  clamps its timers at their boundaries.
* In bevy 0.11 `Commands` issued by a system are applied when the schedule
  finishes (there is no automatic sync point between these systems), so a
  bullet spawned by `move_players` during frame f joins the entity set at
  the end of frame f: it is first moved and aged in frame f+1.  Likewise a
  bullet despawned by `age_mortals` in frame f is gone from frame f+1 on,
  and nothing after `age_mortals` reads the bullet set in frame f, so we
  remove it immediately.
* Entities are kept in creation-ordered lists; `Transform.translation` is
  the `pos` field, `Player.reload_time`, `Velocity.val` and `LifeTime.val`
  keep their source names.  Render-only data (`PLAYER_SIZE`, `BULLET_SIZE`,
  `MAP_SIZE`, meshes, materials, colors) is excluded as pure presentation.
* The session/rollback machinery (ggrs, bevy_ggrs) is an external library;
  the repository contributes only its configuration (main.rs lines
  110-148).  Where a claim depends on that machinery it is modelled from
  the spec, as marked on the individual definitions.
-/

/-- An element `a + b·√2` of the field ℚ(√2).  All coordinates produced by
the game's arithmetic live here (see header comment). -/
structure Q2 where
  a : ℚ
  b : ℚ
deriving DecidableEq

/-- Embed a rational as `q + 0·√2`. -/
def Q2.ofRat (q : ℚ) : Q2 := ⟨q, 0⟩

/-- Addition in ℚ(√2), componentwise. -/
def Q2.add (x y : Q2) : Q2 := ⟨x.a + y.a, x.b + y.b⟩

/-- Multiplication in ℚ(√2): `(a + b√2)(c + d√2) = ac + 2bd + (ad + bc)√2`. -/
def Q2.mul (x y : Q2) : Q2 := ⟨x.a * y.a + 2 * (x.b * y.b), x.a * y.b + x.b * y.a⟩

/-- Scaling of a ℚ(√2) element by a rational. -/
def Q2.smul (c : ℚ) (x : Q2) : Q2 := ⟨c * x.a, c * x.b⟩

/-- A 2-D vector over ℚ(√2).  Models the x/y components of the game's
`Vec3` values (the z component is always 0 in the simulation). -/
structure Vec2 where
  x : Q2
  y : Q2
deriving DecidableEq

/-- The zero vector. -/
def Vec2.zero : Vec2 := ⟨⟨0, 0⟩, ⟨0, 0⟩⟩

/-- Vector addition. -/
def Vec2.add (v w : Vec2) : Vec2 := ⟨Q2.add v.x w.x, Q2.add v.y w.y⟩

/-- Scaling of a vector by a rational. -/
def Vec2.smul (c : ℚ) (v : Vec2) : Vec2 := ⟨Q2.smul c v.x, Q2.smul c v.y⟩

/-- Squared euclidean length `x² + y²`, in ℚ(√2). -/
def Vec2.sqLen (v : Vec2) : Q2 := Q2.add (Q2.mul v.x v.x) (Q2.mul v.y v.y)

/-- main.rs line 9: `const FPS: usize = 60`. -/
def FPS : ℕ := 60

/-- main.rs line 10: `const FRAME_TIME: f32 = 1. / FPS as f32`. -/
def FRAME_TIME : ℚ := 1 / (FPS : ℚ)

/-- main.rs line 12: `const PLAYER_SPEED: f32 = 400.`. -/
def PLAYER_SPEED : ℚ := 400

/-- main.rs line 15: `const BULLET_SPEED: f32 = 500.`. -/
def BULLET_SPEED : ℚ := 500

/-- main.rs line 20: `const TIME_TO_RELOAD: f32 = 0.5`. -/
def TIME_TO_RELOAD : ℚ := 1 / 2

/-- main.rs line 22: movement-up bit. -/
def INPUT_UP : ℕ := 1 <<< 0

/-- main.rs line 23: movement-down bit. -/
def INPUT_DOWN : ℕ := 1 <<< 1

/-- main.rs line 24: movement-left bit. -/
def INPUT_LEFT : ℕ := 1 <<< 2

/-- main.rs line 25: movement-right bit. -/
def INPUT_RIGHT : ℕ := 1 <<< 3

/-- main.rs line 27: fire-up bit. -/
def INPUT_UP2 : ℕ := 1 <<< 4

/-- main.rs line 28: fire-down bit. -/
def INPUT_DOWN2 : ℕ := 1 <<< 5

/-- main.rs line 29: fire-left bit. -/
def INPUT_LEFT2 : ℕ := 1 <<< 6

/-- main.rs line 30: fire-right bit. -/
def INPUT_RIGHT2 : ℕ := 1 <<< 7

/-- main.rs lines 204-209: the raw movement direction `delta_pos` built from
the four movement bits (`y += 1` on up, `y -= 1` on down, `x += 1` on right,
`x -= 1` on left).  Result as an (x, y) pair of rationals. -/
def move_delta (input : ℕ) : ℚ × ℚ :=
  ((if input &&& INPUT_RIGHT ≠ 0 then (1 : ℚ) else 0)
     - (if input &&& INPUT_LEFT ≠ 0 then (1 : ℚ) else 0),
   (if input &&& INPUT_UP ≠ 0 then (1 : ℚ) else 0)
     - (if input &&& INPUT_DOWN ≠ 0 then (1 : ℚ) else 0))

/-- main.rs lines 213-218: the raw fire direction `bullet_speed` built from
the four fire bits. -/
def fire_delta (input : ℕ) : ℚ × ℚ :=
  ((if input &&& INPUT_RIGHT2 ≠ 0 then (1 : ℚ) else 0)
     - (if input &&& INPUT_LEFT2 ≠ 0 then (1 : ℚ) else 0),
   (if input &&& INPUT_UP2 ≠ 0 then (1 : ℚ) else 0)
     - (if input &&& INPUT_DOWN2 ≠ 0 then (1 : ℚ) else 0))

/-- glam's `Vec3::normalize_or_zero` (divide by the length, or return zero
for the zero vector), specialised to the vectors this game feeds it: both
components of `move_delta`/`fire_delta` always lie in {-1, 0, 1}, so the
length is 0, 1 or √2 and the result lies in ℚ(√2).  The zero vector maps to
zero; axis vectors (length 1) are unchanged; diagonal vectors are divided by
√2, i.e. each component `c` becomes `c·√2/2`. -/
def normalize_or_zero (v : ℚ × ℚ) : Vec2 :=
  if v.1 = 0 ∧ v.2 = 0 then Vec2.zero
  else if v.1 = 0 ∨ v.2 = 0 then ⟨Q2.ofRat v.1, Q2.ofRat v.2⟩
  else ⟨⟨0, v.1 / 2⟩, ⟨0, v.2 / 2⟩⟩

/-- A `Player` entity (main.rs lines 55-59) together with the
`Transform.translation` bevy attaches to it: `handle` and `reload_time` are
the `Player` fields, `pos` is the transform's x/y translation. -/
structure PlayerE where
  handle : ℕ
  pos : Vec2
  reload_time : ℚ
deriving DecidableEq

/-- A `Bullet` entity (main.rs lines 61-72, spawn at lines 223-232):
its transform translation `pos`, its `Velocity.val` (a unit direction) and
its `LifeTime.val` in seconds. -/
structure BulletE where
  pos : Vec2
  vel : Vec2
  life_time : ℚ
deriving DecidableEq

/-- The full simulation-relevant entity state: all players and all bullets,
each in stable creation order. -/
structure GState where
  players : List PlayerE
  bullets : List BulletE
deriving DecidableEq

/-- main.rs lines 204-211: the movement part of `move_players` for one
player: translate by `normalize_or_zero(delta_pos) * PLAYER_SPEED *
FRAME_TIME`. -/
def move_phase (input : ℕ) (p : PlayerE) : PlayerE :=
  { p with pos := (Vec2.add p.pos
      (Vec2.smul (PLAYER_SPEED * FRAME_TIME) (normalize_or_zero (move_delta input)))) }

/-- main.rs lines 213-235: the firing part of `move_players` for one player.
If the normalised fire direction is non-zero (`bullet_speed.length() != 0.`)
and `reload_time <= 0.`, spawn one bullet at the player's current position
with the normalised direction as `Velocity` and `LifeTime` 1, and set
`reload_time = TIME_TO_RELOAD`; otherwise spawn nothing and leave the player
unchanged. -/
def fire_phase (input : ℕ) (p : PlayerE) : PlayerE × Option BulletE :=
  if normalize_or_zero (fire_delta input) ≠ Vec2.zero ∧ p.reload_time ≤ 0 then
    ({ p with reload_time := TIME_TO_RELOAD },
     some { pos := p.pos, vel := normalize_or_zero (fire_delta input), life_time := 1 })
  else (p, none)

/-- main.rs lines 237-238: `reload_time -= FRAME_TIME; if reload_time < 0.
{ reload_time = 0. }`. -/
def decay_phase (p : PlayerE) : PlayerE :=
  { p with reload_time :=
      if p.reload_time - FRAME_TIME < 0 then 0 else p.reload_time - FRAME_TIME }

/-- One `move_players` loop iteration (main.rs lines 201-239) for one
player: movement, then firing, then cooldown decay; returns the updated
player and the bullet spawned for it (at most one per frame). -/
def player_frame (input : ℕ) (p : PlayerE) : PlayerE × Option BulletE :=
  (decay_phase (fire_phase input (move_phase input p)).1,
   (fire_phase input (move_phase input p)).2)

/-- The `move_players` system (main.rs lines 192-240): iterate over the
players, feeding each the input at its `handle` (`inputs[player.handle]`),
and collect the spawned bullets in iteration order. -/
def move_players (inputs : List ℕ) : List PlayerE → List PlayerE × List BulletE
  | [] => ([], [])
  | p :: rest =>
    ((player_frame (inputs.getD p.handle 0) p).1 :: (move_players inputs rest).1,
     (player_frame (inputs.getD p.handle 0) p).2.toList ++ (move_players inputs rest).2)

/-- The `move_objects` system (main.rs lines 245-251): every entity with a
`Velocity` (exactly the bullets) translates by
`velocity * FRAME_TIME * BULLET_SPEED`. -/
def move_objects : List BulletE → List BulletE
  | [] => []
  | b :: rest =>
    { b with pos := Vec2.add b.pos (Vec2.smul (FRAME_TIME * BULLET_SPEED) b.vel) }
      :: move_objects rest

/-- The `age_mortals` system (main.rs lines 256-268): every entity with a
`LifeTime` (exactly the bullets) has it decreased by `FRAME_TIME` and is
despawned when the result is `<= 0`. -/
def age_mortals : List BulletE → List BulletE
  | [] => []
  | b :: rest =>
    if b.life_time - FRAME_TIME ≤ 0 then age_mortals rest
    else { b with life_time := b.life_time - FRAME_TIME } :: age_mortals rest

/-- One frame of the `GgrsSchedule` (main.rs lines 143-147):
`move_players`, then `move_objects`, then `age_mortals`.  Bullets spawned by
`move_players` are deferred bevy commands, applied when the schedule ends:
they join the entity set after `age_mortals` and first move/age next
frame. -/
def step_frame (inputs : List ℕ) (s : GState) : GState :=
  { players := (move_players inputs s.players).1,
    bullets := age_mortals (move_objects s.bullets) ++ (move_players inputs s.players).2 }

/-- Run the simulation over a sequence of per-frame input sets. -/
def sim_frames : List (List ℕ) → GState → GState
  | [], s => s
  | i :: rest, s => sim_frames rest (step_frame i s)

/-- How many bullets are spawned in total while simulating the given input
sequence (observer over the trace of `move_players`). -/
def spawn_count : List (List ℕ) → GState → ℕ
  | [], _ => 0
  | i :: rest, s => (move_players i s.players).2.length + spawn_count rest (step_frame i s)

/-- The initial state produced by `setup` (main.rs lines 168-178): player
`i` at translation `(i * 75, 0)` with `reload_time: 0.`, and no bullets. -/
def init_state (n : ℕ) : GState :=
  { players := (List.range n).map (fun i =>
      { handle := i, pos := { x := Q2.ofRat (75 * (i : ℚ)), y := Q2.ofRat 0 },
        reload_time := 0 }),
    bullets := [] }

/-- The simulation-relevant component kinds of this game's entities:
`Transform` (position), `Player.reload_time`, `Velocity`, `LifeTime`. -/
inductive SimComponent
  | transform
  | playerReloadTime
  | velocity
  | lifeTime
deriving DecidableEq

/-- main.rs line 141: the components registered with the rollback snapshot
system — `register_rollback_component::<Transform>()` is the only
registration, so only `Transform` is saved and restored. -/
def registered_rollback_components : List SimComponent := [SimComponent.transform]

/-- Modelled from the spec: the rollback engine (ggrs / bevy_ggrs) is not
part of src.  Per spec §3 a `StateSnapshot` is "a serializable copy of all
simulation entities' state" capturing "every field that influences future
frames"; taking a snapshot therefore copies the whole `GState`. -/
def snapshot_of (s : GState) : GState := s

/-- Modelled from the spec: restoring a `StateSnapshot` replaces the
working state with the saved copy (spec §3, §4.3). -/
def restore_snapshot (snap : GState) : GState := snap

/-- An IPv4 socket address `a.b.c.d:port`, the only address form this
program's peer lists use (main.rs line 127 parses a `SocketAddr`). -/
structure SockAddr where
  ip0 : ℕ
  ip1 : ℕ
  ip2 : ℕ
  ip3 : ℕ
  port : ℕ
deriving DecidableEq

/-- Split a character list at every occurrence of the separator `c`. -/
def splitOnChar (c : Char) : List Char → List (List Char)
  | [] => [[]]
  | x :: xs =>
    match splitOnChar c xs with
    | [] => [[]]
    | g :: gs => if x = c then [] :: g :: gs else (x :: g) :: gs

/-- Read a non-empty all-digit character list as a decimal number. -/
def parseNatChars (cs : List Char) : Option ℕ :=
  if cs ≠ [] ∧ cs.all Char.isDigit then
    some (cs.foldl (fun n c => 10 * n + (c.toNat - '0'.toNat)) 0)
  else none

/-- Rust's `str::parse::<SocketAddr>` (used at main.rs line 127), restricted
to the IPv4 dotted-quad form `a.b.c.d:port` — the only form `SocketAddr`
accepts that the claims exercise; host names such as `notanaddress` fail to
parse, exactly as in the std parser. -/
def parseSocketAddr (s : String) : Option SockAddr :=
  match splitOnChar ':' s.data with
  | [ipPart, portPart] =>
    match splitOnChar '.' ipPart with
    | [a, b, c, d] =>
      match parseNatChars a, parseNatChars b, parseNatChars c, parseNatChars d,
          parseNatChars portPart with
      | some x0, some x1, some x2, some x3, some pr =>
        if x0 ≤ 255 ∧ x1 ≤ 255 ∧ x2 ≤ 255 ∧ x3 ≤ 255 ∧ pr ≤ 65535 then
          some ⟨x0, x1, x2, x3, pr⟩
        else none
      | _, _, _, _, _ => none
    | _ => none
  | _ => none

/-- ggrs's `PlayerType` as used by main.rs lines 121-129: either the local
player or a remote player at a socket address. -/
inductive PlayerKind
  | localPlayer
  | remote (addr : SockAddr)
deriving DecidableEq

/-- The session produced by `start_p2p_session`: the number of players and
the registered peer kinds, handle `i` holding the kind built from the `i`-th
peer-list entry. -/
structure SessionModel where
  num_players : ℕ
  player_kinds : List PlayerKind
deriving DecidableEq

/-- The outcome of running the session-creation part of `main` (main.rs
lines 110-135): either a session, or a process abort — every fallible step
there is followed by `.unwrap()`, which panics on an error value instead of
returning it. -/
inductive SetupOutcome
  | ok (sess : SessionModel)
  | panicked
deriving DecidableEq

/-- main.rs lines 121-129, one loop iteration: a peer-list entry equal to
`"localhost"` becomes the local player, any other entry must parse as a
socket address (`none` models the `parse().unwrap()` panic). -/
def peer_of (s : String) : Option PlayerKind :=
  if s = "localhost" then some PlayerKind.localPlayer
  else (parseSocketAddr s).map PlayerKind.remote

/-- main.rs lines 121-130: fold `peer_of` over the peer list; the first
unparseable entry aborts (the in-loop `unwrap`). -/
def add_players : List String → Option (List PlayerKind)
  | [] => some []
  | s :: rest =>
    match peer_of s, add_players rest with
    | some pk, some ps => some (pk :: ps)
    | _, _ => none

/-- Session creation as `main` performs it (main.rs lines 110-135): build
the player list (panicking on an unparseable address), then bind the UDP
socket (`bindOk` is the environment's answer; failure panics through the
`unwrap` at line 134), then start the session.  The ggrs builder calls
themselves succeed — every handle `0..n-1` is added exactly once, which is
all `add_player`/`start_p2p_session` require — so no other outcome
exists: there is no path that returns an error value. -/
def create_session (localPort : ℕ) (players : List String) (bindOk : ℕ → Bool) : SetupOutcome :=
  match add_players players with
  | none => SetupOutcome.panicked
  | some ps =>
    if bindOk localPort then SetupOutcome.ok ⟨players.length, ps⟩
    else SetupOutcome.panicked

/-- How many local players a session holds. -/
def local_count (sess : SessionModel) : ℕ :=
  sess.player_kinds.countP (fun pk => decide (pk = PlayerKind.localPlayer))

/-- A peer-list entry the loop at main.rs lines 121-129 accepts: the literal
`"localhost"` or a string that parses as a socket address. -/
def good_entry (s : String) : Prop :=
  s = "localhost" ∨ (parseSocketAddr s).isSome = true

instance (s : String) : Decidable (good_entry s) :=
  inferInstanceAs (Decidable (s = "localhost" ∨ (parseSocketAddr s).isSome = true))

set_option maxRecDepth 100000

theorem sim_frames_append (a b : List (List ℕ)) (s : GState) :
    sim_frames (a ++ b) s = sim_frames b (sim_frames a s) := by
  induction a generalizing s with
  | nil => rfl
  | cons i rest ih => simp [sim_frames, ih]

theorem move_objects_eq (bs : List BulletE) :
    move_objects bs = bs.map (fun b =>
      { b with pos := Vec2.add b.pos (Vec2.smul (FRAME_TIME * BULLET_SPEED) b.vel) }) := by
  induction bs with
  | nil => rfl
  | cons b rest ih => simp [move_objects, ih]

theorem age_mortals_eq (bs : List BulletE) :
    age_mortals bs = (bs.map (fun b => { b with life_time := b.life_time - FRAME_TIME })).filter
      (fun b => decide (0 < b.life_time)) := by
  induction bs with
  | nil => rfl
  | cons b rest ih =>
    rcases le_or_lt (b.life_time - FRAME_TIME) 0 with h | h
    · simp [age_mortals, List.filter_cons, if_pos h, h.not_lt, ih, sub_nonpos.mp h]
    · simp [age_mortals, List.filter_cons, if_neg (not_le.mpr h), h, ih, sub_pos.mp h]

theorem clamp_eq (r : ℚ) :
    (if r - FRAME_TIME < 0 then 0 else r - FRAME_TIME) = max 0 (r - FRAME_TIME) := by
  rcases lt_or_le (r - FRAME_TIME) 0 with h | h
  · rw [if_pos h, max_eq_left h.le]
  · rw [if_neg (not_lt.mpr h), max_eq_right h]

theorem decay_phase_reload_nonneg (p : PlayerE) : 0 ≤ (decay_phase p).reload_time := by
  unfold decay_phase
  by_cases h : p.reload_time - FRAME_TIME < 0
  · simp [h]
  · simp [h]
    exact sub_nonneg.mp (not_lt.mp h)

theorem player_frame_reload_nonneg (i : ℕ) (p : PlayerE) :
    0 ≤ (player_frame i p).1.reload_time :=
  decay_phase_reload_nonneg _

theorem move_players_reload_nonneg (inputs : List ℕ) :
    ∀ ps : List PlayerE, ∀ q ∈ (move_players inputs ps).1, 0 ≤ q.reload_time := by
  intro ps
  induction ps with
  | nil => simp [move_players]
  | cons p rest ih =>
    intro q hq
    simp only [move_players, List.mem_cons] at hq
    rcases hq with hq | hq
    · rw [hq]; exact player_frame_reload_nonneg _ _
    · exact ih q hq

theorem step_frame_reload_nonneg (inputs : List ℕ) (s : GState) :
    ∀ q ∈ (step_frame inputs s).players, 0 ≤ q.reload_time :=
  move_players_reload_nonneg inputs s.players

theorem sim_frames_reload_nonneg (hist : List (List ℕ)) :
    ∀ s : GState, (∀ q ∈ s.players, 0 ≤ q.reload_time) →
      ∀ q ∈ (sim_frames hist s).players, 0 ≤ q.reload_time := by
  induction hist with
  | nil => exact fun s h => h
  | cons i rest ih =>
    intro s _ q hq
    exact ih (step_frame i s) (step_frame_reload_nonneg i s) q hq

theorem init_state_reload_zero (n : ℕ) :
    ∀ q ∈ (init_state n).players, 0 ≤ q.reload_time := by
  intro q hq
  simp only [init_state, List.mem_map] at hq
  obtain ⟨i, _, rfl⟩ := hq
  exact le_refl 0

theorem normalize_y_zero (v : ℚ × ℚ) (hv : v.2 = 0) :
    (normalize_or_zero v).y = Q2.ofRat 0 := by
  unfold normalize_or_zero
  by_cases h1 : v.1 = 0
  · rw [if_pos ⟨h1, hv⟩]; rfl
  · rw [if_neg (fun hc => h1 hc.1), if_pos (Or.inr hv), hv]

theorem normalize_x_zero (v : ℚ × ℚ) (hv : v.1 = 0) :
    (normalize_or_zero v).x = Q2.ofRat 0 := by
  unfold normalize_or_zero
  by_cases h2 : v.2 = 0
  · rw [if_pos ⟨hv, h2⟩]; rfl
  · rw [if_neg (fun hc => h2 hc.2), if_pos (Or.inl hv), hv]

theorem q2_add_smul_zero (q : Q2) (c : ℚ) : Q2.add q (Q2.smul c (Q2.ofRat 0)) = q := by
  cases q
  simp [Q2.add, Q2.smul, Q2.ofRat]

theorem peer_of_eq_none (s : String) : peer_of s = none ↔ ¬ good_entry s := by
  unfold peer_of good_entry
  by_cases h : s = "localhost"
  · simp [h]
  · rcases hp : parseSocketAddr s with _ | addr <;> simp [h, hp]

theorem peer_of_good (s : String) (hg : good_entry s) :
    ∃ pk, peer_of s = some pk ∧ ((pk = PlayerKind.localPlayer) ↔ s = "localhost") := by
  by_cases h : s = "localhost"
  · exact ⟨PlayerKind.localPlayer, by simp [peer_of, h], by simp [h]⟩
  · rcases hg with hg | hg
    · exact absurd hg h
    · rcases hp : parseSocketAddr s with _ | addr
      · rw [hp] at hg; simp at hg
      · exact ⟨PlayerKind.remote addr, by simp [peer_of, h, hp], by simp [h]⟩

theorem add_players_of_bad :
    ∀ l : List String, (∃ s ∈ l, ¬ good_entry s) → add_players l = none := by
  intro l
  induction l with
  | nil => rintro ⟨s, hs, -⟩; exact absurd hs (List.not_mem_nil s)
  | cons s rest ih =>
    rintro ⟨t, ht, hbad⟩
    rcases List.mem_cons.mp ht with rfl | ht
    · have hp : peer_of t = none := (peer_of_eq_none t).mpr hbad
      simp [add_players, hp]
    · have hrest : add_players rest = none := ih ⟨t, ht, hbad⟩
      rcases hp : peer_of s with _ | pk <;> simp [add_players, hp, hrest]

theorem add_players_of_good :
    ∀ l : List String, (∀ s ∈ l, good_entry s) →
      ∃ ps, add_players l = some ps ∧ ps.length = l.length
        ∧ ps.countP (fun pk => decide (pk = PlayerKind.localPlayer))
            = l.countP (fun s => decide (s = "localhost")) := by
  intro l
  induction l with
  | nil => exact fun _ => ⟨[], rfl, rfl, rfl⟩
  | cons s rest ih =>
    intro hg
    obtain ⟨pk, hpk, hloc⟩ := peer_of_good s (hg s (List.mem_cons_self s rest))
    obtain ⟨ps, hps, hlen, hcount⟩ := ih (fun t ht => hg t (List.mem_cons_of_mem s ht))
    refine ⟨pk :: ps, by simp [add_players, hpk, hps], by simp [hlen], ?_⟩
    rw [List.countP_cons, List.countP_cons, hcount]
    congr 1
    by_cases h : s = "localhost"
    · simp [h, hloc.mpr h]
    · have hpk' : ¬ pk = PlayerKind.localPlayer := fun hc => h (hloc.mp hc)
      simp [h, hpk']

/-- C1: the claim says every piece of entity state that influences future
frames — each Player's position and reload timer, each Bullet's position,
velocity and remaining lifetime — is part of the rollback snapshot.  The
code registers only `Transform` (main.rs line 141), so the reload, velocity
and lifetime timers are not in `registered_rollback_components`; and they do
influence future frames: two states identical in every registered component
(positions) but differing in one player's `reload_time` step to different
states under the same input. -/
theorem c1_rollback_snapshot_incomplete :
    (SimComponent.playerReloadTime ∉ registered_rollback_components
      ∧ SimComponent.velocity ∉ registered_rollback_components
      ∧ SimComponent.lifeTime ∉ registered_rollback_components)
    ∧ step_frame [INPUT_UP2]
        { players := [{ handle := 0, pos := Vec2.zero, reload_time := 0 }], bullets := [] }
      ≠ step_frame [INPUT_UP2]
        { players := [{ handle := 0, pos := Vec2.zero, reload_time := 1/2 }], bullets := [] } := by
  with_unfolding_all decide

/-- C2: rollback equivalence.  For every input history `hist`, rollback
point `g` and (discarded) speculative inputs `_pred`: simulating straight
through with the confirmed inputs equals taking the snapshot before frame
`g`, simulating speculatively (the pure state-passing semantics discards
that run entirely), restoring the snapshot, and resimulating the remaining
frames with the corrected inputs — given the corrected inputs equal the
confirmed ones (`hcorr`). -/
theorem c2_rollback_equivalence (hist _pred corrected : List (List ℕ)) (g : ℕ)
    (s0 : GState) (hcorr : corrected = hist.drop g) :
    sim_frames corrected (restore_snapshot (snapshot_of (sim_frames (hist.take g) s0)))
      = sim_frames hist s0 := by
  subst hcorr
  rw [restore_snapshot, snapshot_of, ← sim_frames_append, List.take_append_drop]

/-- Witness for C2 at a concrete history. -/
theorem c2_rollback_equivalence_witness :
    sim_frames [[INPUT_UP]]
        (restore_snapshot (snapshot_of (sim_frames (List.take 0 [[INPUT_UP]]) (init_state 1))))
      = sim_frames [[INPUT_UP]] (init_state 1) :=
  c2_rollback_equivalence [[INPUT_UP]] [[0]] [[INPUT_UP]] 0 (init_state 1) rfl

/-- C3: firing postcondition.  (1) In any frame where the decoded
(normalised) fire direction is non-zero and the player's reload timer is
≤ 0, the firing phase spawns exactly one bullet, positioned at the player's
current position, with the normalised fire direction as velocity and
lifetime 1 second, and resets the reload timer to `TIME_TO_RELOAD`.
(2) Bullets translate by `velocity * FRAME_TIME * BULLET_SPEED` per frame,
i.e. the unit direction moves at speed `BULLET_SPEED`.  (3) With fire input
held for 60 consecutive frames starting with reload timer 0, exactly 2
bullets spawn. -/
theorem c3_firing_postcondition :
    (∀ (input : ℕ) (p : PlayerE),
      normalize_or_zero (fire_delta input) ≠ Vec2.zero → p.reload_time ≤ 0 →
      fire_phase input p =
        ({ p with reload_time := TIME_TO_RELOAD },
         some { pos := p.pos, vel := normalize_or_zero (fire_delta input), life_time := 1 }))
    ∧ (∀ bs : List BulletE, move_objects bs = bs.map (fun b =>
        { b with pos := Vec2.add b.pos (Vec2.smul (FRAME_TIME * BULLET_SPEED) b.vel) }))
    ∧ spawn_count (List.replicate 60 [INPUT_UP2]) (init_state 1) = 2 := by
  refine ⟨?_, move_objects_eq, ?_⟩
  · intro input p h1 h2
    rw [fire_phase, if_pos ⟨h1, h2⟩]
  · with_unfolding_all decide

/-- Witness for C3 at a concrete input: fire-up held, reload timer 0. -/
theorem c3_firing_postcondition_witness :
    fire_phase 16 { handle := 0, pos := Vec2.zero, reload_time := 0 } =
      ({ handle := 0, pos := Vec2.zero, reload_time := TIME_TO_RELOAD },
       some { pos := Vec2.zero, vel := normalize_or_zero (fire_delta 16), life_time := 1 }) :=
  c3_firing_postcondition.1 16 { handle := 0, pos := Vec2.zero, reload_time := 0 }
    (by with_unfolding_all decide) (by with_unfolding_all decide)

/-- C4: reload gating.  A player whose reload timer is > 0 at the firing
phase spawns no bullet in that frame, whatever the fire bits: the firing
phase leaves the player unchanged and yields no bullet, and the whole
per-player frame pipeline yields no bullet either (movement does not touch
the reload timer). -/
theorem c4_reload_gating :
    ∀ (input : ℕ) (p : PlayerE), 0 < p.reload_time →
      fire_phase input p = (p, none) ∧ (player_frame input p).2 = none := by
  intro input p h
  have hgate : ∀ q : PlayerE, 0 < q.reload_time → fire_phase input q = (q, none) := by
    intro q hq
    rw [fire_phase, if_neg]
    rintro ⟨-, hle⟩
    exact absurd hle (not_le.mpr hq)
  have hmove : (move_phase input p).reload_time = p.reload_time := rfl
  refine ⟨hgate p h, ?_⟩
  show (fire_phase input (move_phase input p)).2 = none
  rw [hgate (move_phase input p) (hmove ▸ h)]

/-- Witness for C4: all eight input bits set, reload timer 1/2. -/
theorem c4_reload_gating_witness :
    fire_phase 255 { handle := 0, pos := Vec2.zero, reload_time := 1/2 } =
        ({ handle := 0, pos := Vec2.zero, reload_time := 1/2 }, none)
      ∧ (player_frame 255 { handle := 0, pos := Vec2.zero, reload_time := 1/2 }).2 = none :=
  c4_reload_gating 255 { handle := 0, pos := Vec2.zero, reload_time := 1/2 }
    (by with_unfolding_all decide)

/-- C5: lifetime boundary.  (1) `age_mortals` decreases every bullet's
lifetime by `FRAME_TIME` and removes, in that same frame, exactly the
bullets whose decayed lifetime is ≤ 0 (including exactly 0).  (2) A bullet
spawned with lifetime 1.0 s during frame 0 is still present after frame 59
and is destroyed during frame 60 after spawn — exactly 60 decay steps,
the 60th bringing the lifetime to exactly 0. -/
theorem c5_lifetime_boundary :
    (∀ bs : List BulletE, age_mortals bs =
      (bs.map (fun b => { b with life_time := b.life_time - FRAME_TIME })).filter
        (fun b => decide (0 < b.life_time)))
    ∧ (sim_frames ([INPUT_UP2] :: List.replicate 59 [0]) (init_state 1)).bullets.length = 1
    ∧ (sim_frames ([INPUT_UP2] :: List.replicate 60 [0]) (init_state 1)).bullets.length = 0 := by
  refine ⟨age_mortals_eq, ?_, ?_⟩ <;> with_unfolding_all decide

/-- C6: cooldown decay.  (1) The decay step sets the reload timer to
`max 0 (reload_time - FRAME_TIME)`: it decreases by `FRAME_TIME` and is
clamped at 0.  (2) After any simulated frame every player's reload timer is
≥ 0, from any state.  (3) Hence after any number of frames from the initial
state every reload timer is ≥ 0. -/
theorem c6_cooldown_decay :
    (∀ p : PlayerE, decay_phase p = { p with reload_time := max 0 (p.reload_time - FRAME_TIME) })
    ∧ (∀ (inputs : List ℕ) (s : GState), ∀ q ∈ (step_frame inputs s).players, 0 ≤ q.reload_time)
    ∧ (∀ (hist : List (List ℕ)) (n : ℕ),
        ∀ q ∈ (sim_frames hist (init_state n)).players, 0 ≤ q.reload_time) := by
  refine ⟨?_, step_frame_reload_nonneg, ?_⟩
  · intro p
    unfold decay_phase
    rw [clamp_eq]
  · intro hist n
    exact sim_frames_reload_nonneg hist (init_state n) (init_state_reload_zero n)

/-- Witness for C6: the player produced by one fire frame has reload timer
`1/2 - 1/60 = 29/60 ≥ 0`. -/
theorem c6_cooldown_decay_witness :
    0 ≤ (PlayerE.mk 0 Vec2.zero (29/60)).reload_time :=
  c6_cooldown_decay.2.1 [INPUT_UP2]
    { players := [{ handle := 0, pos := Vec2.zero, reload_time := 0 }], bullets := [] }
    (PlayerE.mk 0 Vec2.zero (29/60)) (by with_unfolding_all decide)

/-- C7: movement.  (1) Each frame translates a player's position by
`normalize_or_zero(move_delta) * PLAYER_SPEED * FRAME_TIME`.  (2) The
decoded direction is either zero or of unit length (squared length 1).
(3) It is zero when no movement bit is set.  (4) Starting at (0,0) and
holding only "up" for exactly 30 frames yields position x = 0, y = 200. -/
theorem c7_movement :
    (∀ (input : ℕ) (p : PlayerE),
      move_phase input p = { p with pos := (Vec2.add p.pos
        (Vec2.smul (PLAYER_SPEED * FRAME_TIME) (normalize_or_zero (move_delta input)))) })
    ∧ (∀ input : ℕ,
        normalize_or_zero (move_delta input) = Vec2.zero
          ∨ Vec2.sqLen (normalize_or_zero (move_delta input)) = Q2.ofRat 1)
    ∧ (∀ input : ℕ, input &&& INPUT_UP = 0 → input &&& INPUT_DOWN = 0 →
        input &&& INPUT_LEFT = 0 → input &&& INPUT_RIGHT = 0 →
        normalize_or_zero (move_delta input) = Vec2.zero)
    ∧ (sim_frames (List.replicate 30 [INPUT_UP]) (init_state 1)).players =
        [{ handle := 0, pos := { x := Q2.ofRat 0, y := Q2.ofRat 200 }, reload_time := 0 }] := by
  refine ⟨fun input p => rfl, ?_, ?_, by with_unfolding_all decide⟩
  · intro input
    by_cases h1 : input &&& INPUT_UP = 0 <;> by_cases h2 : input &&& INPUT_DOWN = 0 <;>
      by_cases h3 : input &&& INPUT_LEFT = 0 <;> by_cases h4 : input &&& INPUT_RIGHT = 0 <;>
      simp only [move_delta, h1, h2, h3, h4, ne_eq] <;> with_unfolding_all decide
  · intro input h1 h2 h3 h4
    simp only [move_delta, h1, h2, h3, h4, ne_eq]
    with_unfolding_all decide

/-- Witness for C7: input 16 (fire-up only) sets no movement bit, so the
movement direction is zero. -/
theorem c7_movement_witness :
    normalize_or_zero (move_delta 16) = Vec2.zero :=
  c7_movement.2.2.1 16 (by with_unfolding_all decide) (by with_unfolding_all decide)
    (by with_unfolding_all decide) (by with_unfolding_all decide)

/-- C8 counterexample: the claim says session creation fails with an error
result (not a crash) on bad configuration, and that a successful session
holds exactly one local player.  On the concrete peer list
`["localhost", "notanaddress"]` the code panics (the `unwrap` of the failed
address parse aborts the process — there is no error-result outcome), and on
`["localhost", "localhost"]` creation succeeds with two local players: the
number of `Local` entries is never validated. -/
theorem c8_session_creation_counterexample :
    create_session 7000 ["localhost", "notanaddress"] (fun _ => true) = SetupOutcome.panicked
    ∧ create_session 7000 ["localhost", "localhost"] (fun _ => true) =
        SetupOutcome.ok ⟨2, [PlayerKind.localPlayer, PlayerKind.localPlayer]⟩ := by
  with_unfolding_all decide

/-- C8 amended: session creation aborts the process by panic — rather than
returning an error value — when any non-`"localhost"` peer entry fails to
parse as a socket address, or when all entries are well formed but the local
port cannot be bound; when every entry is well formed and the bind succeeds,
it returns a session with one player per peer-list entry and one local
player per `"localhost"` entry (the local-player count is not validated). -/
theorem c8_session_creation_amended (port : ℕ) (players : List String) (bindOk : ℕ → Bool) :
    ((∃ s ∈ players, ¬ good_entry s) →
      create_session port players bindOk = SetupOutcome.panicked)
    ∧ ((∀ s ∈ players, good_entry s) → bindOk port = false →
      create_session port players bindOk = SetupOutcome.panicked)
    ∧ ((∀ s ∈ players, good_entry s) → bindOk port = true →
      ∃ sess, create_session port players bindOk = SetupOutcome.ok sess
        ∧ sess.num_players = players.length
        ∧ local_count sess = players.countP (fun s => decide (s = "localhost"))) := by
  refine ⟨?_, ?_, ?_⟩
  · intro hbad
    rw [create_session, add_players_of_bad players hbad]
  · intro hgood hbind
    obtain ⟨ps, hps, -, -⟩ := add_players_of_good players hgood
    rw [create_session, hps]
    simp [hbind]
  · intro hgood hbind
    obtain ⟨ps, hps, hlen, hcount⟩ := add_players_of_good players hgood
    refine ⟨⟨players.length, ps⟩, ?_, rfl, hcount⟩
    rw [create_session, hps]
    simp [hbind]

/-- Witness for the amended C8 on a well-formed two-peer list. -/
theorem c8_session_creation_amended_witness :
    ∃ sess, create_session 7000 ["localhost", "127.0.0.1:7001"] (fun _ => true)
        = SetupOutcome.ok sess
      ∧ sess.num_players = (["localhost", "127.0.0.1:7001"] : List String).length
      ∧ local_count sess =
          (["localhost", "127.0.0.1:7001"] : List String).countP
            (fun s => decide (s = "localhost")) :=
  (c8_session_creation_amended 7000 ["localhost", "127.0.0.1:7001"] (fun _ => true)).2.2
    (by with_unfolding_all decide) rfl

/-- C9: determinism.  (1) Simulating a fixed input sequence from a fixed
initial state depends on nothing else: two runs with equal inputs and equal
initial states produce equal (bit-identical, by decidable equality of
`GState`) final states.  (2) The phase order within a frame is fixed:
`move_players`, then `move_objects`, then `age_mortals`, then the deferred
spawns join. -/
theorem c9_determinism :
    (∀ (hist1 hist2 : List (List ℕ)) (s1 s2 : GState),
      hist1 = hist2 → s1 = s2 → sim_frames hist1 s1 = sim_frames hist2 s2)
    ∧ (∀ (inputs : List ℕ) (s : GState),
        step_frame inputs s =
          { players := (move_players inputs s.players).1,
            bullets := age_mortals (move_objects s.bullets)
              ++ (move_players inputs s.players).2 }) := by
  constructor
  · intro hist1 hist2 s1 s2 h1 h2
    subst h1; subst h2; rfl
  · intro inputs s
    rfl

/-- Witness for C9 at a concrete input sequence. -/
theorem c9_determinism_witness :
    sim_frames [[5]] (init_state 2) = sim_frames [[5]] (init_state 2) :=
  c9_determinism.1 [[5]] [[5]] (init_state 2) (init_state 2) rfl rfl

/-- C10: opposing input bits cancel.  (1) With both fire-up and fire-down
set and no other fire bits, the decoded fire direction is zero, so no bullet
spawns and the reload timer is not reset, for every player — in particular
with reload timer ≤ 0.  (2) Same for fire-left plus fire-right.  (3) With
both move-up and move-down set the frame's translation leaves the y
coordinate unchanged, whatever the horizontal bits; (4) with both move-left
and move-right set it leaves the x coordinate unchanged. -/
theorem c10_opposing_bits_cancel :
    (∀ (input : ℕ) (p : PlayerE),
      input &&& INPUT_UP2 ≠ 0 → input &&& INPUT_DOWN2 ≠ 0 →
      input &&& INPUT_LEFT2 = 0 → input &&& INPUT_RIGHT2 = 0 →
      fire_delta input = (0, 0) ∧ fire_phase input p = (p, none)
        ∧ (player_frame input p).2 = none)
    ∧ (∀ (input : ℕ) (p : PlayerE),
      input &&& INPUT_LEFT2 ≠ 0 → input &&& INPUT_RIGHT2 ≠ 0 →
      input &&& INPUT_UP2 = 0 → input &&& INPUT_DOWN2 = 0 →
      fire_delta input = (0, 0) ∧ fire_phase input p = (p, none)
        ∧ (player_frame input p).2 = none)
    ∧ (∀ (input : ℕ) (p : PlayerE),
      input &&& INPUT_UP ≠ 0 → input &&& INPUT_DOWN ≠ 0 →
      ((move_phase input p).pos).y = p.pos.y)
    ∧ (∀ (input : ℕ) (p : PlayerE),
      input &&& INPUT_LEFT ≠ 0 → input &&& INPUT_RIGHT ≠ 0 →
      ((move_phase input p).pos).x = p.pos.x) := by
  have hfire : ∀ (input : ℕ) (p : PlayerE), fire_delta input = (0, 0) →
      fire_phase input p = (p, none) ∧ (player_frame input p).2 = none := by
    intro input p hfd
    have hnz : normalize_or_zero (fire_delta input) = Vec2.zero := by
      rw [hfd]; with_unfolding_all decide
    have hgate : ∀ q : PlayerE, fire_phase input q = (q, none) := by
      intro q
      rw [fire_phase, if_neg]
      rintro ⟨hne, -⟩
      exact hne hnz
    exact ⟨hgate p, by show (fire_phase input (move_phase input p)).2 = none; rw [hgate]⟩
  refine ⟨?_, ?_, ?_, ?_⟩
  · intro input p h1 h2 h3 h4
    have hfd : fire_delta input = (0, 0) := by
      simp only [fire_delta, h1, h2, h3, h4, ne_eq]
      with_unfolding_all decide
    exact ⟨hfd, hfire input p hfd⟩
  · intro input p h1 h2 h3 h4
    have hfd : fire_delta input = (0, 0) := by
      simp only [fire_delta, h1, h2, h3, h4, ne_eq]
      with_unfolding_all decide
    exact ⟨hfd, hfire input p hfd⟩
  · intro input p h1 h2
    have hy : (move_delta input).2 = 0 := by
      simp only [move_delta, h1, h2, ne_eq]
      with_unfolding_all decide
    show ((Vec2.add p.pos (Vec2.smul (PLAYER_SPEED * FRAME_TIME)
      (normalize_or_zero (move_delta input))))).y = p.pos.y
    rw [Vec2.add, Vec2.smul]
    show Q2.add p.pos.y
      (Q2.smul (PLAYER_SPEED * FRAME_TIME) (normalize_or_zero (move_delta input)).y) = p.pos.y
    rw [normalize_y_zero _ hy, q2_add_smul_zero]
  · intro input p h1 h2
    have hx : (move_delta input).1 = 0 := by
      simp only [move_delta, h1, h2, ne_eq]
      with_unfolding_all decide
    show ((Vec2.add p.pos (Vec2.smul (PLAYER_SPEED * FRAME_TIME)
      (normalize_or_zero (move_delta input))))).x = p.pos.x
    rw [Vec2.add, Vec2.smul]
    show Q2.add p.pos.x
      (Q2.smul (PLAYER_SPEED * FRAME_TIME) (normalize_or_zero (move_delta input)).x) = p.pos.x
    rw [normalize_x_zero _ hx, q2_add_smul_zero]

/-- Witness for C10: input 48 sets exactly fire-up and fire-down. -/
theorem c10_opposing_bits_cancel_witness :
    fire_delta 48 = (0, 0)
      ∧ fire_phase 48 { handle := 0, pos := Vec2.zero, reload_time := 0 } =
          ({ handle := 0, pos := Vec2.zero, reload_time := 0 }, none)
      ∧ (player_frame 48 { handle := 0, pos := Vec2.zero, reload_time := 0 }).2 = none :=
  c10_opposing_bits_cancel.1 48 { handle := 0, pos := Vec2.zero, reload_time := 0 }
    (by with_unfolding_all decide) (by with_unfolding_all decide)
    (by with_unfolding_all decide) (by with_unfolding_all decide)
